import Mathlib

/-!
# Verification of the GooseFX SSL v2 SDK quoting engine

A shallow embedding of the core data structures and operations of the
`gfx-ssl-v2-sdk` repository:

* the rotating oracle price-history ring buffer and its statistics
  (`programs/gfx-ssl-v2/src/state/oracle_price_history/mod.rs`),
* the `Pair` account and its fee attribute lookup
  (`programs/gfx-ssl-v2/src/state/pair.rs`),
* the pool registry (`programs/gfx-ssl-v2/src/state/pool_registry/`),
* the Jupiter integration mirror (`jupiter/src/jupiter.rs`) and the
  quote-check mirror (`quote_check/src/lib.rs`).

Modelling conventions:

* Solana `Pubkey` values (32-byte addresses) are modelled as `ℕ`; the
  `Ord` instance on `Pubkey` compares the 32 bytes lexicographically,
  which is the numeric (big-endian) order, so `<` on `ℕ` is faithful.
  `Pubkey::default()` (the all-zero address) is modelled as `0`.
* `rust_decimal::Decimal` is modelled as `ℚ` (exact decimal arithmetic);
  the library is a scaled-decimal type whose additions, subtractions,
  multiplications and divisions are exact whenever the result fits in its
  96-bit mantissa, which holds for every computation analysed here.
  `Decimal::new(num, scale)` is `num / 10 ^ scale`.
* `u64`/`u16` counters are modelled as `ℕ`.  The only mutating counter,
  `OraclePriceHistory::num_updates`, is incremented once per on-chain
  crank, so u64 wraparound is unreachable in any feasible execution and
  the `ℕ` model coincides with the machine semantics on all of them.
* Fallible Rust functions returning `Result` are modelled with `Except`.
-/

/-- Model of `solana_sdk::pubkey::Pubkey` (a 32-byte address). -/
abbrev Pubkey := ℕ

/-- Model of `rust_decimal::Decimal` (exact decimal arithmetic, see header). -/
abbrev Decimal := ℚ

/-- `Decimal::new(num, scale)`: the decimal `num / 10^scale`. -/
def Decimal.new (num : ℤ) (scale : ℕ) : Decimal := (num : ℚ) / 10 ^ scale

/-- The on-chain program's error enum, from
`programs/gfx-ssl-v2/src/errors.rs` (`SSLV2Error`). -/
inductive SSLV2Error where
  | Suspended
  | NotAdmin
  | MintsNotSorted
  | PriceHistoryEmpty
  | InvalidCrankAccounts
  | OracleNotHealthyStatus
  | OracleNotHealthyDelay
  | OracleNotHealthyConfidence
  | SlippageTooLarge
  | PercentageOutOfRange
  | EmaOrStdWindowTooLarge
  | MintNotMatchPair
  | FeeCollectorIncorrect
  | SSLStale
  | PoolRegistryIsFull
  | MintNotFound
  | MintAlreadyIncluded
  | InvalidPythOracle
  | InvalidTokenOwner
  | InvalidTokenMint
  | StalePriceHistory
  | InvalidOracleType
  | MathError
  | MintsCannotBeSame
  | InvalidFeeDestination
  | CannotCloseLiquidityAccount
  | WithdrawTooLarge
  | InvalidOracleAddress
  | PoolTokenImbalance
  | PoolRegistryNotMatchPair
  | ZeroInitialDeposit
  | OraclePriceRecorded
  | AmountTooSmall
  | NotEnoughLiquidity
  | NotATokenAccount
  | OracleThrottled
  | NotZeroParameter
  | PoolRegistryNotMatchOraclePriceHistory
deriving DecidableEq, Repr

/-- The Jupiter integration error enum, from `jupiter/src/error.rs`
(`GfxJupiterIntegrationError`).  The `String` payload of
`DeserializeFailure` carries the expected type name. -/
inductive GfxJupiterIntegrationError where
  | DeserializeFailure (address : Pubkey) (ty : String)
  | MathError
  | PoolNotFound (mint : Pubkey)
  | RequiredAccountUpdate
  | CannotResolveFeeDestination
  | NotUpgradable
  | MissingQuoteLine
deriving DecidableEq, Repr

/-! ## Price history entries

From `programs/gfx-ssl-v2/src/state/oracle_price_history/historical_price.rs`.
The Rust `HistoricalDecimal` also carries a cached `inv : f32` field; it is a
floating-point cache never read by any of the functions modelled here and is
omitted (all entries analysed leave it zeroed, as `Default` does). -/

/-- `HistoricalDecimal { num: i64, scale: u32 }`, representing
`num / 10^scale` via `Decimal::new`. -/
structure HistoricalDecimal where
  num : ℤ
  scale : ℕ
deriving DecidableEq, Repr

/-- `Into<Decimal> for HistoricalDecimal`: `Decimal::new(num, scale)`. -/
def HistoricalDecimal.toDecimal (d : HistoricalDecimal) : Decimal :=
  Decimal.new d.num d.scale

instance : Inhabited HistoricalDecimal := ⟨⟨0, 0⟩⟩

/-- `HistoricalPrice { price, slot }`. -/
structure HistoricalPrice where
  price : HistoricalDecimal
  slot : ℕ
deriving DecidableEq, Repr

/-- `HistoricalPrice::default()`: the all-zero sentinel entry. -/
def HistoricalPrice.zeroed : HistoricalPrice := ⟨⟨0, 0⟩, 0⟩

instance : Inhabited HistoricalPrice := ⟨HistoricalPrice.zeroed⟩

/-- Output of the mean/std-deviation computation
(`BollingerBand<Decimal>`). -/
structure BollingerBand where
  mean : Decimal
  std : Decimal
deriving DecidableEq, Repr

/-! ## The oracle price history ring buffer

From `programs/gfx-ssl-v2/src/state/oracle_price_history/mod.rs`. -/

/-- `NUM_HISTORICAL_PRICE_ENTRIES`: max capacity of the price history. -/
def NUM_HISTORICAL_PRICE_ENTRIES : ℕ := 256

/-- `OraclePriceHistory`.  The fixed array
`price_history: [HistoricalPrice; 256]` is modelled as a function out of
`ZMod 256` (indices are always reduced `% 256` at use sites in the
source). -/
structure OraclePriceHistory where
  oracle_type : ℕ
  minimum_elapsed_slots : ℕ
  max_slot_price_staleness : ℕ
  pool_registry : Pubkey
  oracle_address : Pubkey
  mint : Pubkey
  num_updates : ℕ
  price_history : ZMod NUM_HISTORICAL_PRICE_ENTRIES → HistoricalPrice

namespace OraclePriceHistory

/-- `OraclePriceHistory::default()` (`Self::zeroed()`): every field zero,
every entry the sentinel. -/
def zeroed : OraclePriceHistory where
  oracle_type := 0
  minimum_elapsed_slots := 0
  max_slot_price_staleness := 0
  pool_registry := 0
  oracle_address := 0
  mint := 0
  num_updates := 0
  price_history := fun _ => HistoricalPrice.zeroed

/-- `most_recent_index()`: `num_updates as usize % NUM_HISTORICAL_PRICE_ENTRIES`. -/
def most_recent_index (h : OraclePriceHistory) : ℕ :=
  h.num_updates % NUM_HISTORICAL_PRICE_ENTRIES

/-- `most_recent_entry()`: the entry at `most_recent_index()`. -/
def most_recent_entry (h : OraclePriceHistory) : HistoricalPrice :=
  h.price_history (h.most_recent_index : ZMod NUM_HISTORICAL_PRICE_ENTRIES)

/-- `push(historical_price)`: write at offset
`(num_updates + 1) % NUM_HISTORICAL_PRICE_ENTRIES`, then increment
`num_updates`.  Total: pushing never fails. -/
def push (h : OraclePriceHistory) (historical_price : HistoricalPrice) :
    OraclePriceHistory :=
  { h with
    price_history :=
      Function.update h.price_history
        (((h.num_updates + 1) % NUM_HISTORICAL_PRICE_ENTRIES : ℕ) :
          ZMod NUM_HISTORICAL_PRICE_ENTRIES)
        historical_price
    num_updates := h.num_updates + 1 }

/-- `latest_price()`: errors with `PriceHistoryEmpty` when the most recent
entry equals the zero sentinel. -/
def latest_price (h : OraclePriceHistory) :
    Except SSLV2Error HistoricalPrice :=
  let price := h.most_recent_entry
  if price = HistoricalPrice.zeroed then .error .PriceHistoryEmpty
  else .ok price

end OraclePriceHistory

/-! ## The newest-first iterator (`AccountHistoryIterator`)

`next()` yields while `counter < NUM_HISTORICAL_PRICE_ENTRIES` and
`counter < num_updates`, reading `price_history[index]` and stepping
`index` to `NUM_HISTORICAL_PRICE_ENTRIES - 1` when it is `0`, else to
`index - 1`.  The loop therefore runs exactly
`min NUM_HISTORICAL_PRICE_ENTRIES num_updates` times, starting at
`most_recent_index()`. -/

/-- One backward step of the iterator's `index` field. -/
def prevIndex (i : ZMod NUM_HISTORICAL_PRICE_ENTRIES) :
    ZMod NUM_HISTORICAL_PRICE_ENTRIES :=
  if i = 0 then (NUM_HISTORICAL_PRICE_ENTRIES - 1 : ℕ) else i - 1

/-- The entries yielded by `n` iterator steps starting at index `i`. -/
def iterFrom (h : OraclePriceHistory) (i : ZMod NUM_HISTORICAL_PRICE_ENTRIES) :
    ℕ → List HistoricalPrice
  | 0 => []
  | n + 1 => h.price_history i :: iterFrom h (prevIndex i) n

/-- The index trace of `n` iterator steps starting at index `i`. -/
def iterIndicesFrom (i : ZMod NUM_HISTORICAL_PRICE_ENTRIES) :
    ℕ → List (ZMod NUM_HISTORICAL_PRICE_ENTRIES)
  | 0 => []
  | n + 1 => i :: iterIndicesFrom (prevIndex i) n

/-- `AccountHistoryIterator::from(h)` collected into a list: the full
newest-first iteration. -/
def OraclePriceHistory.iterateNewestFirst (h : OraclePriceHistory) :
    List HistoricalPrice :=
  iterFrom h (h.most_recent_index : ZMod NUM_HISTORICAL_PRICE_ENTRIES)
    (min NUM_HISTORICAL_PRICE_ENTRIES h.num_updates)

/-- The array slots visited by the full newest-first iteration. -/
def OraclePriceHistory.iterIndices (h : OraclePriceHistory) :
    List (ZMod NUM_HISTORICAL_PRICE_ENTRIES) :=
  iterIndicesFrom (h.most_recent_index : ZMod NUM_HISTORICAL_PRICE_ENTRIES)
    (min NUM_HISTORICAL_PRICE_ENTRIES h.num_updates)

/-! ## Bollinger band computation

From `OraclePriceHistory::bollinger_band`.  The source loop zips the two
newest-first iterators, takes `mean_window.max(std_window)` elements, and
for each `(idx, elem)` adds `elem.0.price / elem.1.price` to `mean_sum`
when `idx < mean_window` and to `std_sum` / `std_items` when
`idx < std_window`; since indices are consumed in order this is the same
as summing over the `take` prefixes, which is how it is written below. -/

/-- Model of `rust_decimal`'s approximate `sqrt` value on a nonnegative
input (a Newton iteration in the library).  The theorems below depend on
this value only at perfect squares of the input's denominator scale, where
the approximation is exact; in particular `ratSqrtApprox 0 = 0`. -/
def ratSqrtApprox (q : ℚ) : ℚ :=
  (Nat.sqrt (q.num.toNat * q.den) : ℚ) / (q.den : ℚ)

/-- `Decimal::sqrt`: `None` exactly on negative inputs. -/
def Decimal.sqrt (q : ℚ) : Option ℚ :=
  if q < 0 then none else some (ratSqrtApprox q)

/-- `bollinger_band(mean_window, std_window, input_token_history)`. -/
def OraclePriceHistory.bollinger_band (self : OraclePriceHistory)
    (mean_window std_window : ℕ) (input_token_history : OraclePriceHistory) :
    Except SSLV2Error BollingerBand :=
  if mean_window = 0 ∨ std_window = 0 then .error .MathError
  else if self.num_updates < max mean_window std_window then
    .error .EmaOrStdWindowTooLarge
  else if input_token_history.num_updates < max mean_window std_window then
    .error .EmaOrStdWindowTooLarge
  else
    let zipped :=
      (self.iterateNewestFirst.zip input_token_history.iterateNewestFirst).take
        (max mean_window std_window)
    if zipped = [] then .error .PriceHistoryEmpty
    else
      let ratios := zipped.map fun e => e.1.price.toDecimal / e.2.price.toDecimal
      let mean_sum := (ratios.take mean_window).sum
      let std_items := ratios.take std_window
      let std_sum := std_items.sum
      let std_mean := std_sum / (std_window : ℚ)
      let variance :=
        (std_items.map fun r => (std_mean - r) * (std_mean - r)).sum /
          (std_window : ℚ)
      match Decimal.sqrt variance with
      | none => .error .MathError
      | some std => .ok { mean := mean_sum / (mean_window : ℚ), std := std }

/-! ## The `Pair` account

From `programs/gfx-ssl-v2/src/state/pair.rs`.  The historical-volume
byte-array fields are u128 counters, modelled as `ℕ`. -/

/-- `SwapIxMintOrdering`. -/
inductive SwapIxMintOrdering where
  | InOut
  | OutIn
deriving DecidableEq, Repr

/-- The `Pair` account. -/
structure Pair where
  pool_registry : Pubkey
  mints : Pubkey × Pubkey
  fee_collector : Pubkey × Pubkey
  fee_rates : ℕ × ℕ
  total_fees_generated_native : ℕ × ℕ
  total_historical_volume : ℕ
  total_internally_swapped : ℕ × ℕ
deriving DecidableEq, Repr

namespace Pair

/-- `Pair::normalize_mint_order`: put the numerically smaller mint first. -/
def normalize_mint_order (mint_one mint_two : Pubkey) : Pubkey × Pubkey :=
  if mint_one < mint_two then (mint_one, mint_two) else (mint_two, mint_one)

/-- `Pair::address`: normalizes the mint order, then derives the PDA from
the seeds `[b"pair", pool_registry, m1, m2]`.  `find_program_address` is a
SHA-256-based derivation; it is passed in as an arbitrary deterministic
function of the seed list so that theorems about `address` hold for the
real hash in particular. -/
def address (find_program_address : List Pubkey → Pubkey)
    (pool_registry mint_one mint_two : Pubkey) : Pubkey :=
  let m := normalize_mint_order mint_one mint_two
  find_program_address [pool_registry, m.1, m.2]

/-- `Pair::find_fee_attrs(mint_in, mint_out)`: fee rate (as a 4-decimal
basis-point decimal), fee collector and mint ordering.  Per its doc
comment, "The fee rate and destination should always come from the output
mint."  (Note the source returns `SwapIxMintOrdering::InOut` on both
success branches.) -/
def find_fee_attrs (self : Pair) (mint_in mint_out : Pubkey) :
    Except SSLV2Error (Decimal × Pubkey × SwapIxMintOrdering) :=
  if (mint_in, mint_out) = self.mints then
    .ok (Decimal.new self.fee_rates.2 4, self.fee_collector.2, .InOut)
  else if (mint_out, mint_in) = self.mints then
    .ok (Decimal.new self.fee_rates.1 4, self.fee_collector.1, .InOut)
  else
    .error .MintNotFound

end Pair

/-! ## The pool registry

From `programs/gfx-ssl-v2/src/state/pool_registry/`. -/

/-- `SSLPool` (`pool_registry/ssl_pool.rs`).  Only the fields read by the
code under verification are carried; `oracle_price_histories` is a
`[Pubkey; 3]` array of which only index 0 is ever read, modelled as a
triple whose first component is index 0. -/
structure SSLPool where
  status : ℕ
  asset_type : ℕ
  mint : Pubkey
  mint_decimals : ℕ
  bump : ℕ
  total_accumulated_lp_reward : ℕ
  total_liquidity_deposits : ℕ
  oracle_price_histories : Pubkey × Pubkey × Pubkey
deriving DecidableEq, Repr

/-- `PoolRegistry` (`pool_registry/mod.rs`).  `entries` is a fixed
`[SSLPool; 32]` array scanned linearly, modelled as a list. -/
structure PoolRegistry where
  admin : Pubkey
  seed : Pubkey
  suspend_admin : Pubkey
  bump : ℕ
  num_entries : ℕ
  entries : List SSLPool
deriving DecidableEq, Repr

/-- `PoolRegistry::find_pool(mint)`: first entry whose mint matches, else
`MintNotFound`. -/
def PoolRegistry.find_pool (self : PoolRegistry) (mint : Pubkey) :
    Except SSLV2Error SSLPool :=
  match self.entries.find? (fun entry => entry.mint = mint) with
  | some pool => .ok pool
  | none => .error .MintNotFound

/-! ## Ring buffer lemmas -/

instance : NeZero NUM_HISTORICAL_PRICE_ENTRIES := ⟨by decide⟩

lemma prevIndex_eq (i : ZMod NUM_HISTORICAL_PRICE_ENTRIES) :
    prevIndex i = i - 1 := by
  unfold prevIndex
  by_cases hi : i = 0
  · subst hi; decide
  · simp [hi]

lemma iterFrom_eq_map (h : OraclePriceHistory)
    (i : ZMod NUM_HISTORICAL_PRICE_ENTRIES) (n : ℕ) :
    iterFrom h i n =
      (List.range n).map (fun m => h.price_history (i - (m : ℕ))) := by
  induction n generalizing i with
  | zero => rfl
  | succ n ih =>
    rw [iterFrom, ih (prevIndex i), List.range_succ_eq_map, List.map_cons,
      List.map_map]
    refine congrArg₂ _ (by simp) (List.map_congr_left fun m _ => ?_)
    simp only [Function.comp_apply]
    rw [prevIndex_eq]
    congr 1
    push_cast
    ring

lemma iterIndicesFrom_eq_map (i : ZMod NUM_HISTORICAL_PRICE_ENTRIES) (n : ℕ) :
    iterIndicesFrom i n = (List.range n).map (fun m => i - (m : ℕ)) := by
  induction n generalizing i with
  | zero => rfl
  | succ n ih =>
    rw [iterIndicesFrom, ih (prevIndex i), List.range_succ_eq_map,
      List.map_cons, List.map_map]
    refine congrArg₂ _ (by simp) (List.map_congr_left fun m _ => ?_)
    simp only [Function.comp_apply]
    rw [prevIndex_eq]
    push_cast
    ring

lemma length_iterFrom (h : OraclePriceHistory)
    (i : ZMod NUM_HISTORICAL_PRICE_ENTRIES) (n : ℕ) :
    (iterFrom h i n).length = n := by
  rw [iterFrom_eq_map]; simp

lemma length_iterateNewestFirst (h : OraclePriceHistory) :
    h.iterateNewestFirst.length =
      min NUM_HISTORICAL_PRICE_ENTRIES h.num_updates := by
  rw [OraclePriceHistory.iterateNewestFirst, length_iterFrom]

lemma iterate_eq_map_iterIndices (h : OraclePriceHistory) :
    h.iterateNewestFirst = h.iterIndices.map h.price_history := by
  rw [OraclePriceHistory.iterateNewestFirst, OraclePriceHistory.iterIndices,
    iterFrom_eq_map, iterIndicesFrom_eq_map, List.map_map]
  rfl

lemma natCast_inj_of_lt_card {a b : ℕ} (ha : a < NUM_HISTORICAL_PRICE_ENTRIES)
    (hb : b < NUM_HISTORICAL_PRICE_ENTRIES)
    (hab : (a : ZMod NUM_HISTORICAL_PRICE_ENTRIES) = b) : a = b := by
  have := congrArg ZMod.val hab
  rwa [ZMod.val_natCast, ZMod.val_natCast, Nat.mod_eq_of_lt ha,
    Nat.mod_eq_of_lt hb] at this

lemma iterIndices_nodup (h : OraclePriceHistory) : h.iterIndices.Nodup := by
  rw [OraclePriceHistory.iterIndices, iterIndicesFrom_eq_map]
  refine List.Nodup.map_on ?_ (List.nodup_range _)
  intro a ha b hb hfab
  have ha' : a < NUM_HISTORICAL_PRICE_ENTRIES :=
    lt_of_lt_of_le (List.mem_range.mp ha) (min_le_left _ _)
  have hb' : b < NUM_HISTORICAL_PRICE_ENTRIES :=
    lt_of_lt_of_le (List.mem_range.mp hb) (min_le_left _ _)
  exact natCast_inj_of_lt_card ha' hb'
    (sub_right_injective (G := ZMod NUM_HISTORICAL_PRICE_ENTRIES) hfab)

lemma natCast_mod_card (a : ℕ) :
    ((a % NUM_HISTORICAL_PRICE_ENTRIES : ℕ) : ZMod NUM_HISTORICAL_PRICE_ENTRIES)
      = (a : ZMod NUM_HISTORICAL_PRICE_ENTRIES) := by
  conv_rhs => rw [← Nat.div_add_mod a NUM_HISTORICAL_PRICE_ENTRIES]
  push_cast
  simp [ZMod.natCast_self]

lemma neg_one_eq_cast_card_sub_one :
    (-1 : ZMod NUM_HISTORICAL_PRICE_ENTRIES) =
      ((NUM_HISTORICAL_PRICE_ENTRIES - 1 : ℕ) :
        ZMod NUM_HISTORICAL_PRICE_ENTRIES) := by
  decide

/-- One push shifts the newest-first view: the new entry comes first,
followed by the first 255 entries of the previous view. -/
lemma iterate_push (h : OraclePriceHistory) (p : HistoricalPrice) :
    (h.push p).iterateNewestFirst =
      p :: h.iterateNewestFirst.take (NUM_HISTORICAL_PRICE_ENTRIES - 1) := by
  have hN : NUM_HISTORICAL_PRICE_ENTRIES = 256 := rfl
  have hmin : min NUM_HISTORICAL_PRICE_ENTRIES (h.num_updates + 1) =
      min (NUM_HISTORICAL_PRICE_ENTRIES - 1) h.num_updates + 1 := by
    rw [Nat.min_def, Nat.min_def]
    split_ifs <;> omega
  have harr : (h.push p).price_history =
      Function.update h.price_history
        (((h.num_updates + 1) % NUM_HISTORICAL_PRICE_ENTRIES : ℕ) :
          ZMod NUM_HISTORICAL_PRICE_ENTRIES) p := rfl
  have hn : (h.push p).num_updates = h.num_updates + 1 := rfl
  have hmri : ((h.push p).most_recent_index : ZMod NUM_HISTORICAL_PRICE_ENTRIES)
      = ((h.num_updates + 1 : ℕ) : ZMod NUM_HISTORICAL_PRICE_ENTRIES) := by
    rw [OraclePriceHistory.most_recent_index, hn, natCast_mod_card]
  rw [OraclePriceHistory.iterateNewestFirst, OraclePriceHistory.iterateNewestFirst,
    iterFrom_eq_map, iterFrom_eq_map, hn, hmri, hmin, List.range_succ_eq_map,
    List.map_cons, List.map_map, ← List.map_take, List.take_range,
    show ((h.most_recent_index : ℕ) : ZMod NUM_HISTORICAL_PRICE_ENTRIES) =
      ((h.num_updates : ℕ) : ZMod NUM_HISTORICAL_PRICE_ENTRIES) from
      natCast_mod_card _]
  have hminmin : min (NUM_HISTORICAL_PRICE_ENTRIES - 1)
      (min NUM_HISTORICAL_PRICE_ENTRIES h.num_updates) =
      min (NUM_HISTORICAL_PRICE_ENTRIES - 1) h.num_updates := by
    rw [Nat.min_def, Nat.min_def, Nat.min_def]
    split_ifs <;> omega
  rw [hminmin]
  refine congrArg₂ List.cons ?_ (List.map_congr_left fun m hm => ?_)
  · -- head: the freshly written entry
    rw [harr, Nat.cast_zero, sub_zero, natCast_mod_card, ← natCast_mod_card,
      Function.update_same]
  · -- tail: untouched slots of the old array
    have hm' : m < NUM_HISTORICAL_PRICE_ENTRIES - 1 :=
      lt_of_lt_of_le (List.mem_range.mp hm) (min_le_left _ _)
    simp only [Function.comp_apply]
    rw [harr, natCast_mod_card]
    have hcast : ((h.num_updates + 1 : ℕ) : ZMod NUM_HISTORICAL_PRICE_ENTRIES)
        - ((Nat.succ m : ℕ) : ZMod NUM_HISTORICAL_PRICE_ENTRIES) =
        ((h.num_updates : ℕ) : ZMod NUM_HISTORICAL_PRICE_ENTRIES)
        - ((m : ℕ) : ZMod NUM_HISTORICAL_PRICE_ENTRIES) := by
      push_cast
      ring
    rw [hcast]
    refine Function.update_noteq (fun hcontra => ?_) _ _
    have hm256 : ((m : ℕ) : ZMod NUM_HISTORICAL_PRICE_ENTRIES) =
        ((NUM_HISTORICAL_PRICE_ENTRIES - 1 : ℕ) :
          ZMod NUM_HISTORICAL_PRICE_ENTRIES) := by
      rw [← neg_one_eq_cast_card_sub_one]
      have := hcontra
      push_cast at this
      linear_combination - this
    have := natCast_inj_of_lt_card (by omega) (by omega) hm256
    omega

lemma iterate_zeroed : OraclePriceHistory.zeroed.iterateNewestFirst = [] := rfl

/-- The newest-first view of a fold of pushes is the reversed push list
(newest first), truncated to capacity, followed by what was visible
before. -/
lemma iterate_foldl_push (h0 : OraclePriceHistory) (l : List HistoricalPrice) :
    (List.foldl OraclePriceHistory.push h0 l).iterateNewestFirst =
      (l.reverse ++ h0.iterateNewestFirst).take NUM_HISTORICAL_PRICE_ENTRIES := by
  induction l using List.reverseRecOn with
  | nil =>
    rw [List.foldl_nil, List.reverse_nil, List.nil_append,
      List.take_of_length_le]
    rw [length_iterateNewestFirst]
    exact min_le_left _ _
  | append_singleton l p ih =>
    rw [List.foldl_append, List.foldl_cons, List.foldl_nil, iterate_push, ih,
      List.reverse_append, List.reverse_singleton, List.singleton_append,
      List.cons_append, List.take_take]
    have hN : NUM_HISTORICAL_PRICE_ENTRIES = 256 := rfl
    rw [hN, show min ((256:ℕ) - 1) 256 = 255 from by decide,
      show (256 : ℕ) = 255 + 1 from rfl, List.take_succ_cons]

lemma foldl_push_num_updates (h0 : OraclePriceHistory)
    (l : List HistoricalPrice) :
    (List.foldl OraclePriceHistory.push h0 l).num_updates =
      h0.num_updates + l.length := by
  induction l generalizing h0 with
  | nil => simp
  | cons p l ih =>
    rw [List.foldl_cons, ih]
    show h0.num_updates + 1 + l.length = _
    rw [List.length_cons]
    omega

/-- **C4.** For a capacity `C = 256` price history, pushing `C + k` entries
(`k > 0`) with strictly increasing slots leaves
`most_recent_index() = (C + k) % C`; the newest-first iteration yields
exactly `C` entries, namely the last `C` pushed entries in reverse push
order, with strictly decreasing slots, visiting pairwise distinct array
slots; and `push` itself writes at index `(write_count + 1) % capacity`,
then increments `write_count` (and, being a total function, never
fails). -/
theorem c4_ring_buffer_wraparound
    (l : List HistoricalPrice) (k : ℕ) (hk : 0 < k)
    (hlen : l.length = NUM_HISTORICAL_PRICE_ENTRIES + k)
    (hinc : l.Pairwise (fun a b => a.slot < b.slot)) :
    (List.foldl OraclePriceHistory.push OraclePriceHistory.zeroed
        l).most_recent_index =
      (NUM_HISTORICAL_PRICE_ENTRIES + k) % NUM_HISTORICAL_PRICE_ENTRIES
    ∧ (List.foldl OraclePriceHistory.push OraclePriceHistory.zeroed
        l).iterateNewestFirst.length = NUM_HISTORICAL_PRICE_ENTRIES
    ∧ (List.foldl OraclePriceHistory.push OraclePriceHistory.zeroed
        l).iterateNewestFirst = l.reverse.take NUM_HISTORICAL_PRICE_ENTRIES
    ∧ (List.foldl OraclePriceHistory.push OraclePriceHistory.zeroed
        l).iterateNewestFirst.Pairwise (fun a b => b.slot < a.slot)
    ∧ (List.foldl OraclePriceHistory.push OraclePriceHistory.zeroed
        l).iterateNewestFirst =
      ((List.foldl OraclePriceHistory.push OraclePriceHistory.zeroed
        l).iterIndices).map
        (List.foldl OraclePriceHistory.push OraclePriceHistory.zeroed
          l).price_history
    ∧ ((List.foldl OraclePriceHistory.push OraclePriceHistory.zeroed
        l).iterIndices).Nodup
    ∧ ∀ (h : OraclePriceHistory) (p : HistoricalPrice),
        (h.push p).num_updates = h.num_updates + 1 ∧
        (h.push p).price_history
          (((h.num_updates + 1) % NUM_HISTORICAL_PRICE_ENTRIES : ℕ) :
            ZMod NUM_HISTORICAL_PRICE_ENTRIES) = p := by
  have hN : NUM_HISTORICAL_PRICE_ENTRIES = 256 := rfl
  have hiter : (List.foldl OraclePriceHistory.push OraclePriceHistory.zeroed
      l).iterateNewestFirst = l.reverse.take NUM_HISTORICAL_PRICE_ENTRIES := by
    rw [iterate_foldl_push, iterate_zeroed, List.append_nil]
  refine ⟨?_, ?_, hiter, ?_, iterate_eq_map_iterIndices _, iterIndices_nodup _,
    fun h p => ⟨rfl, ?_⟩⟩
  · rw [OraclePriceHistory.most_recent_index, foldl_push_num_updates, hlen]
    simp [OraclePriceHistory.zeroed]
  · rw [hiter, List.length_take, List.length_reverse, hlen, Nat.min_def]
    split_ifs <;> omega
  · rw [hiter]
    exact ((List.pairwise_reverse).mpr hinc).sublist (List.take_sublist _ _)
  · show Function.update h.price_history _ p _ = p
    exact Function.update_same _ _ _

/-- Concrete input for the C4 witness: 257 entries with increasing slots. -/
def c4PushList : List HistoricalPrice :=
  (List.range 257).map fun n => ⟨⟨1, 6⟩, n⟩

/-- Witness for C4 at a concrete 257-entry push sequence. -/
theorem c4_ring_buffer_wraparound_witness :
    0 < 1
    ∧ c4PushList.length = NUM_HISTORICAL_PRICE_ENTRIES + 1
    ∧ c4PushList.Pairwise (fun a b => a.slot < b.slot)
    ∧ (List.foldl OraclePriceHistory.push OraclePriceHistory.zeroed
        c4PushList).most_recent_index =
      (NUM_HISTORICAL_PRICE_ENTRIES + 1) % NUM_HISTORICAL_PRICE_ENTRIES
    ∧ (List.foldl OraclePriceHistory.push OraclePriceHistory.zeroed
        c4PushList).iterateNewestFirst =
      c4PushList.reverse.take NUM_HISTORICAL_PRICE_ENTRIES :=
  have h1 : 0 < 1 := Nat.zero_lt_one
  have h2 : c4PushList.length = NUM_HISTORICAL_PRICE_ENTRIES + 1 := by
    rw [c4PushList, List.length_map, List.length_range]
    rfl
  have h3 : c4PushList.Pairwise (fun a b => a.slot < b.slot) := by
    rw [c4PushList, List.pairwise_map]
    exact List.pairwise_lt_range 257
  ⟨h1, h2, h3, (c4_ring_buffer_wraparound c4PushList 1 h1 h2 h3).1,
    (c4_ring_buffer_wraparound c4PushList 1 h1 h2 h3).2.2.1⟩

/-- **C8.** `latest_price()` fails with `PriceHistoryEmpty` exactly when
the most-recent entry equals the all-zero sentinel; on a freshly
constructed history it fails that way, and after exactly one push of a
(non-sentinel) entry it succeeds and returns the pushed entry. -/
theorem c8_latest_price_empty_guard :
    (∀ h : OraclePriceHistory,
        h.latest_price = .error .PriceHistoryEmpty ↔
          h.most_recent_entry = HistoricalPrice.zeroed)
    ∧ OraclePriceHistory.zeroed.latest_price = .error .PriceHistoryEmpty
    ∧ ∀ p : HistoricalPrice, p ≠ HistoricalPrice.zeroed →
        (OraclePriceHistory.zeroed.push p).latest_price = .ok p := by
  have hiff : ∀ h : OraclePriceHistory,
      h.latest_price = .error .PriceHistoryEmpty ↔
        h.most_recent_entry = HistoricalPrice.zeroed := by
    intro h
    rw [OraclePriceHistory.latest_price]
    by_cases hz : h.most_recent_entry = HistoricalPrice.zeroed
    · simp [hz]
    · simp [hz]
  refine ⟨hiff, (hiff _).mpr rfl, fun p hp => ?_⟩
  have hmost : (OraclePriceHistory.zeroed.push p).most_recent_entry = p := by
    simp only [OraclePriceHistory.most_recent_entry,
      OraclePriceHistory.most_recent_index, OraclePriceHistory.push,
      OraclePriceHistory.zeroed]
    apply Function.update_same
  rw [OraclePriceHistory.latest_price]
  simp only [hmost, if_neg hp]

/-- Witness for C8 at a concrete non-sentinel entry. -/
theorem c8_latest_price_empty_guard_witness :
    (⟨⟨5, 2⟩, 10⟩ : HistoricalPrice) ≠ HistoricalPrice.zeroed
    ∧ (OraclePriceHistory.zeroed.push ⟨⟨5, 2⟩, 10⟩).latest_price =
      .ok ⟨⟨5, 2⟩, 10⟩ :=
  ⟨by decide, c8_latest_price_empty_guard.2.2 _ (by decide)⟩

/-! ## Bollinger band lemmas -/

lemma sumsq_div_nonneg (items : List ℚ) (c : ℚ) (n : ℕ) :
    0 ≤ ((items.map fun r => (c - r) * (c - r)).sum) / (n : ℚ) := by
  refine div_nonneg (List.sum_nonneg fun x hx => ?_) (Nat.cast_nonneg n)
  obtain ⟨r, _, rfl⟩ := List.mem_map.mp hx
  exact mul_self_nonneg _

lemma bollinger_zip_take_ne_nil (self input : OraclePriceHistory)
    {mean_window std_window : ℕ} (hmw : mean_window ≠ 0)
    (h1 : ¬ self.num_updates < max mean_window std_window)
    (h2 : ¬ input.num_updates < max mean_window std_window) :
    (self.iterateNewestFirst.zip input.iterateNewestFirst).take
      (max mean_window std_window) ≠ [] := by
  refine List.length_pos.mp ?_
  rw [List.length_take, List.length_zip, length_iterateNewestFirst,
    length_iterateNewestFirst, lt_min_iff, lt_min_iff, lt_min_iff, lt_min_iff]
  have hN : NUM_HISTORICAL_PRICE_ENTRIES = 256 := rfl
  refine ⟨lt_of_lt_of_le (Nat.pos_of_ne_zero hmw) (le_max_left _ _),
    ⟨⟨by omega, by omega⟩, by omega, by omega⟩⟩

lemma decimal_sqrt_sumsq (items : List ℚ) (c : ℚ) (n : ℕ) :
    Decimal.sqrt (((items.map fun r => (c - r) * (c - r)).sum) / (n : ℚ)) =
      some (ratSqrtApprox
        (((items.map fun r => (c - r) * (c - r)).sum) / (n : ℚ))) := by
  rw [Decimal.sqrt, if_neg (not_lt.mpr (sumsq_div_nonneg items c n))]

lemma bollinger_eq_math_error_of_zero_window
    (self input : OraclePriceHistory) {mean_window std_window : ℕ}
    (hz : mean_window = 0 ∨ std_window = 0) :
    self.bollinger_band mean_window std_window input = .error .MathError := by
  unfold OraclePriceHistory.bollinger_band
  rw [if_pos hz]

lemma bollinger_eq_window_too_large
    (self input : OraclePriceHistory) {mean_window std_window : ℕ}
    (hz : ¬(mean_window = 0 ∨ std_window = 0))
    (hlt : self.num_updates < max mean_window std_window ∨
      input.num_updates < max mean_window std_window) :
    self.bollinger_band mean_window std_window input =
      .error .EmaOrStdWindowTooLarge := by
  unfold OraclePriceHistory.bollinger_band
  rw [if_neg hz]
  by_cases h1 : self.num_updates < max mean_window std_window
  · rw [if_pos h1]
  · rw [if_neg h1, if_pos (hlt.resolve_left h1)]

lemma bollinger_ok_of_guards (self input : OraclePriceHistory)
    {mean_window std_window : ℕ}
    (hz : ¬(mean_window = 0 ∨ std_window = 0))
    (hlt : ¬(self.num_updates < max mean_window std_window ∨
      input.num_updates < max mean_window std_window)) :
    ∃ b, self.bollinger_band mean_window std_window input = .ok b := by
  push_neg at hlt
  obtain ⟨h1, h2⟩ := hlt
  push_neg at hz
  unfold OraclePriceHistory.bollinger_band
  rw [if_neg (by tauto), if_neg (not_lt.mpr h1), if_neg (not_lt.mpr h2),
    if_neg (bollinger_zip_take_ne_nil self input hz.1 (not_lt.mpr h1)
      (not_lt.mpr h2))]
  simp only [decimal_sqrt_sumsq]
  exact ⟨_, rfl⟩

/-- **C7.** `bollinger_band` fails with `MathError` exactly when a window
is zero; fails with the window-too-large error exactly when the windows
are nonzero and either history's write count is below
`max mean_window std_window`; and when neither condition holds it returns
neither of those two errors. -/
theorem c7_bollinger_window_guards (self input : OraclePriceHistory)
    (mean_window std_window : ℕ) :
    (self.bollinger_band mean_window std_window input = .error .MathError ↔
      mean_window = 0 ∨ std_window = 0)
    ∧ (self.bollinger_band mean_window std_window input =
        .error .EmaOrStdWindowTooLarge ↔
      ¬(mean_window = 0 ∨ std_window = 0) ∧
        (self.num_updates < max mean_window std_window ∨
          input.num_updates < max mean_window std_window))
    ∧ (¬(mean_window = 0 ∨ std_window = 0) →
      ¬(self.num_updates < max mean_window std_window ∨
          input.num_updates < max mean_window std_window) →
      self.bollinger_band mean_window std_window input ≠ .error .MathError ∧
        self.bollinger_band mean_window std_window input ≠
          .error .EmaOrStdWindowTooLarge) := by
  by_cases hz : mean_window = 0 ∨ std_window = 0
  · rw [bollinger_eq_math_error_of_zero_window self input hz]
    exact ⟨by simp [hz], by simp [hz], fun h => absurd hz h⟩
  · by_cases hlt : self.num_updates < max mean_window std_window ∨
        input.num_updates < max mean_window std_window
    · rw [bollinger_eq_window_too_large self input hz hlt]
      exact ⟨⟨fun h => absurd h (by simp), fun h => absurd h hz⟩,
        ⟨fun _ => ⟨hz, hlt⟩, fun _ => rfl⟩, fun _ h => absurd hlt h⟩
    · obtain ⟨b, hb⟩ := bollinger_ok_of_guards self input hz hlt
      rw [hb]
      exact ⟨⟨fun h => absurd h (by simp), fun h => absurd h hz⟩,
        ⟨fun h => absurd h (by simp), fun h => absurd h.2 hlt⟩,
        fun _ _ => ⟨by simp, by simp⟩⟩

/-- A history with `n` recorded updates in which every array slot holds
the same entry (concrete test input for the statistics theorems). -/
def constHistory (n : ℕ) (p : HistoricalPrice) : OraclePriceHistory where
  oracle_type := 0
  minimum_elapsed_slots := 0
  max_slot_price_staleness := 0
  pool_registry := 0
  oracle_address := 0
  mint := 0
  num_updates := n
  price_history := fun _ => p

/-- Witness for C7 at concrete histories and windows. -/
theorem c7_bollinger_window_guards_witness :
    (constHistory 5 ⟨⟨1, 0⟩, 1⟩).bollinger_band 0 3
        (constHistory 5 ⟨⟨1, 0⟩, 1⟩) = .error .MathError
    ∧ (constHistory 5 ⟨⟨1, 0⟩, 1⟩).bollinger_band 6 6
        (constHistory 5 ⟨⟨1, 0⟩, 1⟩) = .error .EmaOrStdWindowTooLarge
    ∧ ((constHistory 5 ⟨⟨1, 0⟩, 1⟩).bollinger_band 5 5
        (constHistory 5 ⟨⟨1, 0⟩, 1⟩) ≠ .error .MathError
      ∧ (constHistory 5 ⟨⟨1, 0⟩, 1⟩).bollinger_band 5 5
        (constHistory 5 ⟨⟨1, 0⟩, 1⟩) ≠ .error .EmaOrStdWindowTooLarge) :=
  ⟨(c7_bollinger_window_guards _ _ 0 3).1.mpr (Or.inl rfl),
    (c7_bollinger_window_guards _ _ 6 6).2.1.mpr (by decide),
    (c7_bollinger_window_guards _ _ 5 5).2.2 (by decide) (by decide)⟩

/-- **C10.** The `PriceHistoryEmpty` branch of `bollinger_band` is
unreachable: whenever the window guards pass, the zipped newest-first
iteration is nonempty, so `bollinger_band` never returns that error. -/
theorem c10_bollinger_never_history_empty (self input : OraclePriceHistory)
    (mean_window std_window : ℕ) :
    self.bollinger_band mean_window std_window input ≠
      .error .PriceHistoryEmpty := by
  by_cases hz : mean_window = 0 ∨ std_window = 0
  · rw [bollinger_eq_math_error_of_zero_window self input hz]
    simp
  · by_cases hlt : self.num_updates < max mean_window std_window ∨
        input.num_updates < max mean_window std_window
    · rw [bollinger_eq_window_too_large self input hz hlt]
      simp
    · obtain ⟨b, hb⟩ := bollinger_ok_of_guards self input hz hlt
      rw [hb]
      simp

lemma decimal_sqrt_zero : Decimal.sqrt 0 = some 0 := by
  rw [Decimal.sqrt, if_neg (lt_irrefl 0), ratSqrtApprox]
  norm_num

/-- **C5 (amended).** For two price histories whose aligned newest-first
entries have the same exact-decimal price ratio `r` throughout, and
windows with `1 ≤ mean_window ≤ 256`, `1 ≤ std_window ≤ 256` and both
write counts at least `max mean_window std_window`, `bollinger_band`
returns exactly `mean = r` and `std = 0`.  (The bound by the capacity
`256` is the amendment: for larger, still guard-passing windows the
iterator yields only 256 entries and the mean is scaled down, see the
counterexample.) -/
theorem c5_bollinger_constant_ratio
    (self input : OraclePriceHistory) (r : ℚ) (mean_window std_window : ℕ)
    (hmw : 1 ≤ mean_window) (hsw : 1 ≤ std_window)
    (hmwC : mean_window ≤ NUM_HISTORICAL_PRICE_ENTRIES)
    (hswC : std_window ≤ NUM_HISTORICAL_PRICE_ENTRIES)
    (h1 : max mean_window std_window ≤ self.num_updates)
    (h2 : max mean_window std_window ≤ input.num_updates)
    (hr : ∀ pr ∈ self.iterateNewestFirst.zip input.iterateNewestFirst,
        pr.1.price.toDecimal / pr.2.price.toDecimal = r) :
    self.bollinger_band mean_window std_window input = .ok ⟨r, 0⟩ := by
  have hN : NUM_HISTORICAL_PRICE_ENTRIES = 256 := rfl
  have hz : ¬(mean_window = 0 ∨ std_window = 0) := by omega
  obtain ⟨h1m, h1s⟩ := max_le_iff.mp h1
  obtain ⟨h2m, h2s⟩ := max_le_iff.mp h2
  have hratios : ((self.iterateNewestFirst.zip input.iterateNewestFirst).take
      (max mean_window std_window)).map
      (fun e => e.1.price.toDecimal / e.2.price.toDecimal) =
      List.replicate (max mean_window std_window) r := by
    refine List.eq_replicate_iff.mpr ⟨?_, fun b hb => ?_⟩
    · rw [List.length_map, List.length_take, List.length_zip,
        length_iterateNewestFirst, length_iterateNewestFirst]
      rw [hN] at hmwC hswC ⊢
      simp only [Nat.min_def, Nat.max_def] at *
      split_ifs at * <;> omega
    · obtain ⟨pr, hpr, rfl⟩ := List.mem_map.mp hb
      exact hr pr (List.take_subset _ _ hpr)
  have hminm : min mean_window (max mean_window std_window) = mean_window :=
    min_eq_left (le_max_left _ _)
  have hmins : min std_window (max mean_window std_window) = std_window :=
    min_eq_left (le_max_right _ _)
  have hsw0 : (std_window : ℚ) ≠ 0 := Nat.cast_ne_zero.mpr (by omega)
  have hmw0 : (mean_window : ℚ) ≠ 0 := Nat.cast_ne_zero.mpr (by omega)
  unfold OraclePriceHistory.bollinger_band
  rw [if_neg hz, if_neg (not_lt.mpr h1), if_neg (not_lt.mpr h2),
    if_neg (bollinger_zip_take_ne_nil self input (by omega) (not_lt.mpr h1)
      (not_lt.mpr h2))]
  simp only [hratios, List.take_replicate, hminm, hmins, List.sum_replicate,
    List.map_replicate, nsmul_eq_mul, mul_div_cancel_left₀ r hsw0, sub_self,
    mul_zero, smul_zero, zero_div, decimal_sqrt_zero,
    mul_div_cancel_left₀ r hmw0]

/-- The C5 witness input: five identical entries in each history, ratio 2. -/
def c5NumEntry : HistoricalPrice := ⟨⟨2, 0⟩, 7⟩

/-- The C5 witness input, denominator side. -/
def c5DenEntry : HistoricalPrice := ⟨⟨1, 0⟩, 7⟩

lemma iterate_constHistory (n : ℕ) (p : HistoricalPrice) :
    (constHistory n p).iterateNewestFirst =
      List.replicate (min NUM_HISTORICAL_PRICE_ENTRIES n) p := by
  rw [OraclePriceHistory.iterateNewestFirst, iterFrom_eq_map]
  show List.map (fun _ => p) _ = _
  rw [List.map_const', List.length_range]
  rfl

/-- Witness for the amended C5 at concrete five-entry histories with
constant ratio 2. -/
theorem c5_bollinger_constant_ratio_witness :
    1 ≤ 5 ∧ 5 ≤ NUM_HISTORICAL_PRICE_ENTRIES
    ∧ max 5 5 ≤ (constHistory 5 c5NumEntry).num_updates
    ∧ max 5 5 ≤ (constHistory 5 c5DenEntry).num_updates
    ∧ (∀ pr ∈ (constHistory 5 c5NumEntry).iterateNewestFirst.zip
        (constHistory 5 c5DenEntry).iterateNewestFirst,
        pr.1.price.toDecimal / pr.2.price.toDecimal = 2)
    ∧ (constHistory 5 c5NumEntry).bollinger_band 5 5
        (constHistory 5 c5DenEntry) = .ok ⟨2, 0⟩ := by
  have hr : ∀ pr ∈ (constHistory 5 c5NumEntry).iterateNewestFirst.zip
      (constHistory 5 c5DenEntry).iterateNewestFirst,
      pr.1.price.toDecimal / pr.2.price.toDecimal = 2 := by
    intro pr hpr
    rw [iterate_constHistory, iterate_constHistory,
      show min NUM_HISTORICAL_PRICE_ENTRIES 5 = 5 from rfl,
      List.zip_replicate, min_self] at hpr
    rw [List.eq_of_mem_replicate hpr]
    norm_num [c5NumEntry, c5DenEntry, HistoricalDecimal.toDecimal, Decimal.new]
  exact ⟨by norm_num, by norm_num [NUM_HISTORICAL_PRICE_ENTRIES],
    by norm_num [constHistory], by norm_num [constHistory], hr,
    c5_bollinger_constant_ratio _ _ 2 5 5 (by norm_num) (by norm_num)
      (by norm_num [NUM_HISTORICAL_PRICE_ENTRIES])
      (by norm_num [NUM_HISTORICAL_PRICE_ENTRIES])
      (by norm_num [constHistory]) (by norm_num [constHistory]) hr⟩

/-- The constant entry used in the C5 counterexample (price `1.0`). -/
def c5ConstEntry : HistoricalPrice := ⟨⟨1, 0⟩, 5⟩

/-- **C5 counterexample.**  With windows `(mean_window, std_window) =
(300, 1)` — valid per the claim, since both are nonzero and both write
counts are `300 ≥ max 300 1` — and two identical histories (every aligned
ratio is exactly `1`), `bollinger_band` returns `mean = 256/300 ≠ 1`: the
iterator yields only the capacity's 256 entries while the sum is divided
by the window 300. -/
theorem c5_bollinger_constant_ratio_counterexample :
    1 ≤ 300 ∧ 1 ≤ 1
    ∧ max 300 1 ≤ (constHistory 300 c5ConstEntry).num_updates
    ∧ (constHistory 300 c5ConstEntry).iterateNewestFirst =
        List.replicate 256 c5ConstEntry
    ∧ c5ConstEntry.price.toDecimal = 1
    ∧ (constHistory 300 c5ConstEntry).bollinger_band 300 1
        (constHistory 300 c5ConstEntry) = .ok ⟨256 / 300, 0⟩
    ∧ ((256 : ℚ) / 300 ≠ 1) := by
  have hiter : (constHistory 300 c5ConstEntry).iterateNewestFirst =
      List.replicate 256 c5ConstEntry := iterate_constHistory 300 c5ConstEntry
  have hprice : c5ConstEntry.price.toDecimal = 1 := by
    norm_num [c5ConstEntry, HistoricalDecimal.toDecimal, Decimal.new]
  refine ⟨by norm_num, le_refl 1, by norm_num [constHistory], hiter, hprice,
    ?_, by norm_num⟩
  unfold OraclePriceHistory.bollinger_band
  rw [if_neg (by norm_num), if_neg (by norm_num [constHistory]),
    if_neg (by norm_num [constHistory]),
    if_neg (bollinger_zip_take_ne_nil _ _ (by norm_num)
      (by norm_num [constHistory]) (by norm_num [constHistory]))]
  have hzip : ((constHistory 300 c5ConstEntry).iterateNewestFirst.zip
      (constHistory 300 c5ConstEntry).iterateNewestFirst).take (max 300 1) =
      List.replicate 256 (c5ConstEntry, c5ConstEntry) := by
    rw [hiter, List.zip_replicate, min_self, List.take_replicate,
      show min (max 300 1) 256 = 256 from rfl]
  simp only [hzip, List.map_replicate, hprice, List.take_replicate,
    List.sum_replicate, nsmul_eq_mul, List.map_replicate]
  norm_num [decimal_sqrt_zero]

/-- **C9.** Pair address derivation is order-independent in the two
mints: `normalize_mint_order` puts the numerically smaller address first,
so the derived seeds — and hence the PDA, for any deterministic
`find_program_address` — coincide. -/
theorem c9_pair_address_order_independent
    (find_program_address : List Pubkey → Pubkey)
    (pool_registry mintA mintB : Pubkey) :
    Pair.address find_program_address pool_registry mintA mintB =
      Pair.address find_program_address pool_registry mintB mintA := by
  unfold Pair.address Pair.normalize_mint_order
  rcases lt_trichotomy mintA mintB with h | h | h
  · rw [if_pos h, if_neg (not_lt.mpr (le_of_lt h))]
  · subst h
    rfl
  · rw [if_neg (not_lt.mpr (le_of_lt h)), if_pos h]

/-! ## The Jupiter integration (`jupiter/src/jupiter.rs`)

The `jupiter_amm_interface::Quote` struct, and the parts of `GfxAmm` that
decide fee bookkeeping.  The swap computation itself is executed by the
sandboxed BPF interpreter (`SBFExecutor`), which both the repository and
its spec treat as an opaque program executor; the embedding therefore
covers the state mirror and the pre/post-processing around that call. -/

/-- `jupiter_amm_interface::Quote`. -/
structure Quote where
  not_enough_liquidity : Bool
  min_in_amount : Option ℕ
  min_out_amount : Option ℕ
  in_amount : ℕ
  out_amount : ℕ
  fee_amount : ℕ
  fee_mint : Pubkey
  fee_pct : Decimal
deriving DecidableEq, Repr

namespace Jupiter

/-- The mirror state of `jupiter/src/jupiter.rs::GfxAmm` (the tracked
account-key map is carried separately where needed). -/
structure GfxAmm where
  pair : Pubkey
  pool_registry : Pubkey
  mints : Pubkey × Pubkey
  fee_rates : ℕ × ℕ
  fee_destination : Pubkey × Pubkey
  price_histories : List Pubkey
  has_program_data : Bool
  ssl_signers : Pubkey × Pubkey
  main_vaults : Pubkey × Pubkey
  secondary_vaults : Pubkey × Pubkey
  fee_vaults : Pubkey × Pubkey
  oracles : Pubkey × Pubkey
  event_emitter : Pubkey
deriving DecidableEq, Repr

/-- The fee-destination pair computed in `GfxAmm::from_keyed_account`:
`find_fee_attrs(mints.0, mints.1)` gives slot 0 and
`find_fee_attrs(mints.1, mints.0)` gives slot 1, errors becoming
`CannotResolveFeeDestination`. -/
def fromKeyedAccountFeeDestinations (p : Pair) :
    Except GfxJupiterIntegrationError (Pubkey × Pubkey) :=
  match p.find_fee_attrs p.mints.1 p.mints.2,
      p.find_fee_attrs p.mints.2 p.mints.1 with
  | .ok (_, fee_destination_a, _), .ok (_, fee_destination_b, _) =>
    .ok (fee_destination_a, fee_destination_b)
  | _, _ => .error .CannotResolveFeeDestination

/-- The fee destination selected by `GfxAmm::quote` (the direction
branch): `fee_destination.0` when `input_mint == mints.0`, else
`fee_destination.1`. -/
def quoteFeeDestination (amm : GfxAmm) (input_mint : Pubkey) : Pubkey :=
  if input_mint = amm.mints.1 then amm.fee_destination.1
  else amm.fee_destination.2

/-- The `Quote` assembled at the end of `GfxAmm::quote` from the
post-execution token-account balances returned by the opaque executor:
`fee_pct` is `Decimal::new(fee_rates.0, 4)` when
`input_mint == mints.0`, else `Decimal::new(fee_rates.1, 4)`;
`in_amount` and `fee_amount` are saturating balance differences, and
`not_enough_liquidity` is hard-coded `false`. -/
def quoteAssemble (amm : GfxAmm) (input_mint output_mint : Pubkey)
    (amount input_amount_after output_amount_after : ℕ)
    (fee_amount_before fee_amount_after : ℕ) : Quote :=
  let fee_pct : ℕ :=
    if input_mint = amm.mints.1 then amm.fee_rates.1 else amm.fee_rates.2
  { not_enough_liquidity := false
    min_in_amount := none
    min_out_amount := none
    in_amount := amount - input_amount_after
    out_amount := output_amount_after
    fee_amount := (fee_amount_after - fee_amount_before) * 2
    fee_mint := output_mint
    fee_pct := Decimal.new fee_pct 4 }

end Jupiter

/-- Concrete pair for C1: distinct fee rates and collectors per slot. -/
def c1Pair : Pair where
  pool_registry := 1
  mints := (10, 20)
  fee_collector := (100, 200)
  fee_rates := (7, 9)
  total_fees_generated_native := (0, 0)
  total_historical_volume := 0
  total_internally_swapped := (0, 0)

/-- The mirror `from_keyed_account` builds from `c1Pair` (fee-relevant
fields; `fee_rates` is copied verbatim from the pair and
`fee_destination` from `fromKeyedAccountFeeDestinations`). -/
def c1Amm : Jupiter.GfxAmm where
  pair := 5
  pool_registry := 1
  mints := (10, 20)
  fee_rates := (7, 9)
  fee_destination := (200, 100)
  price_histories := [31, 32]
  has_program_data := true
  ssl_signers := (41, 42)
  main_vaults := (51, 52)
  secondary_vaults := (61, 62)
  fee_vaults := (71, 72)
  oracles := (81, 82)
  event_emitter := 90

/-- **C1 (code evaluation).**  At `c1Pair`, `find_fee_attrs` and the
`from_keyed_account` destinations do take the OUTPUT mint's slot (rate
`9`, collector `200` for the `mints.0 → mints.1` direction), and
`quote`'s selected fee destination agrees; but the `fee_pct` field of the
assembled `Quote` is `Decimal::new(7, 4)` — the INPUT mint's slot — which
differs from the output mint's rate `Decimal::new(9, 4)`. -/
theorem c1_quote_fee_pct_uses_input_slot :
    c1Pair.find_fee_attrs 10 20 = .ok (Decimal.new 9 4, 200, .InOut)
    ∧ Jupiter.fromKeyedAccountFeeDestinations c1Pair = .ok (200, 100)
    ∧ Jupiter.quoteFeeDestination c1Amm 10 = 200
    ∧ (Jupiter.quoteAssemble c1Amm 10 20 1000 0 1980 500 503).fee_pct =
        Decimal.new 7 4
    ∧ Decimal.new 7 4 ≠ Decimal.new 9 4 :=
  ⟨rfl, rfl, rfl, rfl, by norm_num [Decimal.new]⟩

/-- Modelled from the spec: the on-chain swap compute step's liquidity
check (spec section 4.4, step 5).  The swap instruction body in this
repository (`programs/gfx-ssl-v2/src/lib.rs::swap`) is an interface stub
(`Ok(())`); the deployed program that the quote simulates is compiled
bytecode absent from the sources, so the check is modelled from the
spec's words: the computed `output_amount` exceeding the selected output
vault's available balance (sum of the output mint's main and secondary
vaults) fails the quote with `NotEnoughLiquidity` (error G133), and a
successful quote carries `not_enough_liquidity = false`. -/
def swapComputeStep (amount_in output_amount fee_amount : ℕ)
    (output_mint : Pubkey)
    (out_main_vault_balance out_secondary_vault_balance : ℕ)
    (fee_pct : Decimal) : Except SSLV2Error Quote :=
  if out_main_vault_balance + out_secondary_vault_balance < output_amount then
    .error .NotEnoughLiquidity
  else
    .ok { not_enough_liquidity := false
          min_in_amount := none
          min_out_amount := none
          in_amount := amount_in
          out_amount := output_amount
          fee_amount := fee_amount
          fee_mint := output_mint
          fee_pct := fee_pct }

/-- **C3.** The quote fails with `NotEnoughLiquidity` exactly when the
computed output amount exceeds the output mint's available balance (main
plus secondary vault), and every successful quote has
`not_enough_liquidity = false` — both for the spec-modelled compute step
and (for the success flag) for the `Quote` the Jupiter integration
assembles around the executor. -/
theorem c3_not_enough_liquidity_guard
    (amount_in output_amount fee_amount : ℕ) (output_mint : Pubkey)
    (main_balance secondary_balance : ℕ) (fee_pct : Decimal) :
    (main_balance + secondary_balance < output_amount ↔
      swapComputeStep amount_in output_amount fee_amount output_mint
        main_balance secondary_balance fee_pct = .error .NotEnoughLiquidity)
    ∧ (∀ q, swapComputeStep amount_in output_amount fee_amount output_mint
        main_balance secondary_balance fee_pct = .ok q →
        q.not_enough_liquidity = false)
    ∧ (∀ (amm : Jupiter.GfxAmm) (input_mint : Pubkey)
        (amount input_after output_after fee_before fee_after : ℕ),
        (Jupiter.quoteAssemble amm input_mint output_mint amount input_after
          output_after fee_before fee_after).not_enough_liquidity = false) := by
  refine ⟨?_, ?_, fun _ _ _ _ _ _ _ => rfl⟩
  · unfold swapComputeStep
    by_cases h : main_balance + secondary_balance < output_amount
    · simp [h]
    · simp [h]
  · intro q hq
    unfold swapComputeStep at hq
    by_cases h : main_balance + secondary_balance < output_amount
    · rw [if_pos h] at hq
      exact absurd hq (by simp)
    · rw [if_neg h] at hq
      obtain rfl := (Except.ok.injEq _ _).mp hq
      rfl

/-- Witness for C3 at concrete balances: output 100 against vault balance
10 + 5 fails, and a successful quote at output 12 carries
`not_enough_liquidity = false`. -/
theorem c3_not_enough_liquidity_guard_witness :
    (10 : ℕ) + 5 < 100
    ∧ swapComputeStep 50 100 1 20 10 5 (Decimal.new 9 4) =
        .error .NotEnoughLiquidity
    ∧ (∀ q, swapComputeStep 50 12 1 20 10 5 (Decimal.new 9 4) = .ok q →
        q.not_enough_liquidity = false)
    ∧ (Jupiter.quoteAssemble ⟨5, 1, (10, 20), (7, 9), (200, 100), [31, 32],
        true, (41, 42), (51, 52), (61, 62), (71, 72), (81, 82), 90⟩ 10 20
        1000 0 5 1 2).not_enough_liquidity = false :=
  ⟨by norm_num,
    (c3_not_enough_liquidity_guard 50 100 1 20 10 5 (Decimal.new 9 4)).1.mp
      (by norm_num),
    (c3_not_enough_liquidity_guard 50 12 1 20 10 5 (Decimal.new 9 4)).2.1,
    (c3_not_enough_liquidity_guard 50 12 1 20 10 5 (Decimal.new 9 4)).2.2 _ 10
      1000 0 5 1 2⟩

/-! ## The quote-check mirror (`quote_check/src/lib.rs`)

`GfxAmm` there keeps a `HashMap<Pubkey, Option<AccountSharedData>>` of
required accounts (`None` = known required, not yet fetched), modelled as
an association list with unique keys.  Raw account bytes are abstracted
into the typed payloads the update pass attempts to deserialize; a
deserializer applied to the wrong payload fails, as the borsh/anchor
deserializers do on wrong bytes. -/

/-- `solana_sdk::bpf_loader_upgradeable::UpgradeableLoaderState`. -/
inductive UpgradeableLoaderState where
  | uninitialized
  | buffer (authority_address : Option Pubkey)
  | program (programdata_address : Pubkey)
  | programData (slot : ℕ) (upgrade_authority_address : Option Pubkey)
deriving DecidableEq, Repr

/-- Typed stand-in for raw account bytes (see section header). -/
inductive AccountData where
  | poolRegistryData (r : PoolRegistry)
  | priceHistoryData (h : OraclePriceHistory)
  | loaderStateData (st : UpgradeableLoaderState)
  | tokenAccountData (amount : ℕ)
  | otherData (tag : ℕ)

/-- `PoolRegistry::try_deserialize` on the abstracted bytes. -/
def deserializePoolRegistry : AccountData → Option PoolRegistry
  | .poolRegistryData r => some r
  | _ => none

/-- `OraclePriceHistory::try_deserialize` on the abstracted bytes. -/
def deserializeOraclePriceHistory : AccountData → Option OraclePriceHistory
  | .priceHistoryData h => some h
  | _ => none

/-- `account.state::<UpgradeableLoaderState>()` on the abstracted bytes. -/
def deserializeLoaderState : AccountData → Option UpgradeableLoaderState
  | .loaderStateData st => some st
  | _ => none

/-- `declare_id!("GFXsSL5sSaDfNFQUYsHekbWBW1TsFdjDYzACh62tEHxn")`: the
on-chain program id, an arbitrary fixed address in this model. -/
def gfxProgramId : Pubkey := 2 ^ 200 + 77

/-- The mirror's account map. -/
abbrev AccountsMap := List (Pubkey × Option AccountData)

/-- `HashMap::contains_key`. -/
def mapContainsKey (m : AccountsMap) (k : Pubkey) : Bool :=
  m.any fun e => e.1 = k

/-- `HashMap::get` (`none` = key absent; `some none` = key present,
account not yet fetched). -/
def mapGet (m : AccountsMap) (k : Pubkey) : Option (Option AccountData) :=
  (m.find? fun e => e.1 = k).map Prod.snd

/-- `HashMap::insert` (replaces the value if the key is present). -/
def mapInsert (m : AccountsMap) (k : Pubkey) (v : Option AccountData) :
    AccountsMap :=
  if mapContainsKey m k then m.map fun e => if e.1 = k then (k, v) else e
  else m ++ [(k, v)]

/-- `HashMap::remove` (value discarded). -/
def mapRemove (m : AccountsMap) (k : Pubkey) : AccountsMap :=
  m.filter fun e => e.1 ≠ k

/-- `HashMap::keys`. -/
def mapKeys (m : AccountsMap) : List Pubkey := m.map Prod.fst

namespace QuoteCheck

/-- `quote_check/src/lib.rs::GfxAmm` (the `Tuple<2, _>` fields are
pairs). -/
structure GfxAmm where
  pair : Pubkey
  log : Bool
  mints : Pubkey × Pubkey
  pool_registry : Pubkey
  fee_rates : ℕ × ℕ
  fee_destination : Pubkey × Pubkey
  ssl_signers : Pubkey × Pubkey
  main_vaults : Pubkey × Pubkey
  secondary_vaults : Pubkey × Pubkey
  fee_vaults : Pubkey × Pubkey
  oracles : Pubkey × Pubkey
  event_emitter : Pubkey
  price_histories : Pubkey × Pubkey
  program_data_address : Pubkey
  accounts : AccountsMap

/-- `GfxAmm::ready`: throws `RequiredAccountUpdate` when the program-data
address is default, or any tracked price-history address is default, or
any resolved oracle address is default (`Tuple::any` over each pair). -/
def GfxAmm.ready (s : GfxAmm) : Except GfxJupiterIntegrationError Unit :=
  if s.program_data_address = 0 ∨
      (s.price_histories.1 = 0 ∨ s.price_histories.2 = 0) ∨
      (s.oracles.1 = 0 ∨ s.oracles.2 = 0) then
    .error .RequiredAccountUpdate
  else .ok ()

/-- `GfxAmm::quote`: `self.ready()?` followed by the clock lookup, the
sandboxed BPF execution of the swap instruction and the `Quote` assembly;
everything after the readiness gate involves only the opaque executor and
is abstracted as the `exec` argument. -/
def GfxAmm.quote (s : GfxAmm)
    (exec : Except GfxJupiterIntegrationError Quote) :
    Except GfxJupiterIntegrationError Quote := do
  s.ready
  exec

/-- The body of `for i in [0, 1]` inside `GfxAmm::update`'s pool-registry
branch: resolve the mint's pool in the incoming registry, compare its
price-history address with the one in the previously stored registry
bytes (if any), evict the stale address, insert the new one, and record
it in `price_histories[i]`.  `first` selects `i = 0` or `i = 1`.  In the
`mapGet = none` case the source panics (`.expect("No way")`); it is
unreachable because the branch is guarded by `contains_key`. -/
def registryMintStep (s : GfxAmm) (pubkey : Pubkey)
    (new_registry : PoolRegistry) (first : Bool) :
    Except GfxJupiterIntegrationError GfxAmm := do
  let mint := if first then s.mints.1 else s.mints.2
  let ssl ← match new_registry.find_pool mint with
    | .ok ssl => .ok ssl
    | .error _ => .error (.PoolNotFound mint)
  let step ← match mapGet s.accounts pubkey with
    | some (some acct) => do
        let old ← match deserializePoolRegistry acct with
          | some r => .ok r
          | none => .error (.DeserializeFailure pubkey "PoolRegistry")
        let existing_ssl ← match old.find_pool mint with
          | .ok ssl => .ok ssl
          | .error _ => .error (.PoolNotFound mint)
        if existing_ssl.oracle_price_histories.1 =
            ssl.oracle_price_histories.1 then
          .ok (none, false)
        else
          .ok (some existing_ssl.oracle_price_histories.1, true)
    | some none => .ok ((none : Option Pubkey), true)
    | none => .ok ((none : Option Pubkey), true)
  let accounts := match step.1 with
    | some k => mapRemove s.accounts k
    | none => s.accounts
  let accounts :=
    if step.2 then mapInsert accounts ssl.oracle_price_histories.1 none
    else accounts
  .ok { s with
        accounts
        price_histories :=
          if first then (ssl.oracle_price_histories.1, s.price_histories.2)
          else (s.price_histories.1, ssl.oracle_price_histories.1) }

/-- One iteration of the `for (pubkey, account) in account_map` loop of
`GfxAmm::update`. -/
def updateOne (s : GfxAmm) (entry : Pubkey × AccountData) :
    Except GfxJupiterIntegrationError GfxAmm := do
  let pubkey := entry.1
  let account := entry.2
  if !mapContainsKey s.accounts pubkey then .ok s
  else do
    let s ←
      if pubkey = s.pool_registry then do
        let pool_registry ← match deserializePoolRegistry account with
          | some r => .ok r
          | none => .error (.DeserializeFailure pubkey "PoolRegistry")
        let s ← registryMintStep s pubkey pool_registry true
        registryMintStep s pubkey pool_registry false
      else if pubkey = s.price_histories.1 then do
        let history ← match deserializeOraclePriceHistory account with
          | some h => .ok h
          | none => .error (.DeserializeFailure pubkey "OraclePriceHistory")
        let accounts :=
          if !mapContainsKey s.accounts history.oracle_address then
            mapInsert s.accounts history.oracle_address none
          else s.accounts
        .ok { s with accounts, oracles := (history.oracle_address, s.oracles.2) }
      else if pubkey = s.price_histories.2 then do
        let history ← match deserializeOraclePriceHistory account with
          | some h => .ok h
          | none => .error (.DeserializeFailure pubkey "OraclePriceHistory")
        let accounts :=
          if !mapContainsKey s.accounts history.oracle_address then
            mapInsert s.accounts history.oracle_address none
          else s.accounts
        .ok { s with accounts, oracles := (s.oracles.1, history.oracle_address) }
      else if pubkey = gfxProgramId then do
        let st ← match deserializeLoaderState account with
          | some st => .ok st
          | none => .error (.DeserializeFailure pubkey "UpgradeableLoaderState")
        let programdata_address ← match st with
          | .program pda => .ok pda
          | _ => .error .NotUpgradable
        let accounts :=
          if programdata_address ≠ s.program_data_address then
            mapInsert (mapRemove s.accounts s.program_data_address)
              programdata_address none
          else s.accounts
        .ok { s with accounts, program_data_address := programdata_address }
      else .ok s
    -- the final store re-checks presence with `get_mut`: the branch above
    -- may have evicted this very key
    .ok { s with
          accounts :=
            if mapContainsKey s.accounts pubkey then
              mapInsert s.accounts pubkey (some account)
            else s.accounts }

/-- `GfxAmm::update` over a batch of fetched accounts (the Rust `HashMap`
iteration order is arbitrary; the batch is supplied as a list). -/
def GfxAmm.update (s : GfxAmm) (account_map : List (Pubkey × AccountData)) :
    Except GfxJupiterIntegrationError GfxAmm :=
  account_map.foldlM updateOne s

/-- `GfxAmm::get_accounts_to_update` (the required addresses): the keys
of the account map. -/
def GfxAmm.get_accounts_to_update (s : GfxAmm) : List Pubkey :=
  mapKeys s.accounts

end QuoteCheck

/-! ## Account-map lemmas -/

lemma mapContainsKey_iff_mem_keys (m : AccountsMap) (k : Pubkey) :
    mapContainsKey m k = true ↔ k ∈ mapKeys m := by
  unfold mapContainsKey mapKeys
  rw [List.any_eq_true]
  constructor
  · rintro ⟨e, hem, he⟩
    exact List.mem_map.mpr ⟨e, hem, by simpa using he.symm⟩
  · rintro hm
    obtain ⟨e, hem, rfl⟩ := List.mem_map.mp hm
    exact ⟨e, hem, by simp⟩

lemma mapContainsKey_of_mapGet_eq_some (m : AccountsMap) (k : Pubkey)
    (v : Option AccountData) (h : mapGet m k = some v) :
    mapContainsKey m k = true := by
  unfold mapGet at h
  obtain ⟨e, hfind, _⟩ := Option.map_eq_some'.mp h
  have hpe := List.find?_some
    (p := fun e : Pubkey × Option AccountData => decide (e.1 = k)) hfind
  exact List.any_eq_true.mpr ⟨e, List.mem_of_find?_eq_some hfind, hpe⟩

lemma mapGet_mapRemove_ne (m : AccountsMap) {a k : Pubkey} (h : a ≠ k) :
    mapGet (mapRemove m k) a = mapGet m a := by
  unfold mapGet mapRemove
  induction m with
  | nil => rfl
  | cons e m ih =>
    by_cases he : e.1 = k
    · rw [List.filter_cons_of_neg (by simp [he]), List.find?_cons_of_neg _
        (by simp [he]; exact fun hka => h hka.symm)]
      exact ih
    · by_cases hea : e.1 = a
      · rw [List.filter_cons_of_pos (by simp [he]),
          List.find?_cons_of_pos _ (by simp [hea]),
          List.find?_cons_of_pos _ (by simp [hea])]
      · rw [List.filter_cons_of_pos (by simp [he]),
          List.find?_cons_of_neg _ (by simp [hea]),
          List.find?_cons_of_neg _ (by simp [hea])]
        exact ih

lemma keys_mapInsert_replace (m : AccountsMap) (k : Pubkey)
    (v : Option AccountData) :
    mapKeys (m.map fun e => if e.1 = k then (k, v) else e) = mapKeys m := by
  unfold mapKeys
  rw [List.map_map]
  refine List.map_congr_left fun e _ => ?_
  by_cases he : e.1 = k
  · simp [he]
  · simp [he]

lemma mem_keys_mapInsert (m : AccountsMap) (k a : Pubkey)
    (v : Option AccountData) :
    a ∈ mapKeys (mapInsert m k v) ↔ a = k ∨ a ∈ mapKeys m := by
  unfold mapInsert
  by_cases hc : mapContainsKey m k
  · rw [if_pos hc, keys_mapInsert_replace]
    have hk : k ∈ mapKeys m := (mapContainsKey_iff_mem_keys m k).mp hc
    constructor
    · exact Or.inr
    · rintro (rfl | h)
      · exact hk
      · exact h
  · rw [if_neg hc]
    unfold mapKeys
    rw [List.map_append]
    simp [or_comm]

lemma mem_keys_mapRemove (m : AccountsMap) (k a : Pubkey) :
    a ∈ mapKeys (mapRemove m k) ↔ a ≠ k ∧ a ∈ mapKeys m := by
  unfold mapKeys mapRemove
  simp only [List.mem_map, List.mem_filter]
  constructor
  · rintro ⟨e, ⟨hem, hek⟩, rfl⟩
    exact ⟨by simpa using hek, ⟨e, hem, rfl⟩⟩
  · rintro ⟨hak, ⟨e, hem, rfl⟩⟩
    exact ⟨e, ⟨hem, by simpa using hak⟩, rfl⟩

lemma mapGet_replace_ne (m : AccountsMap) {a k : Pubkey}
    (v : Option AccountData) (h : a ≠ k) :
    Option.map Prod.snd (List.find? (fun e => decide (e.1 = a))
      (m.map fun e => if e.1 = k then (k, v) else e)) =
    Option.map Prod.snd (List.find? (fun e => decide (e.1 = a)) m) := by
  induction m with
  | nil => rfl
  | cons e m ih =>
    by_cases he : e.1 = k
    · rw [List.map_cons, if_pos he,
        List.find?_cons_of_neg _ (by simp; exact fun hka => h hka.symm),
        List.find?_cons_of_neg _ (by simp [he]; exact fun hka => h hka.symm)]
      exact ih
    · by_cases hea : e.1 = a
      · rw [List.map_cons, if_neg he,
          List.find?_cons_of_pos _ (by simp [hea]),
          List.find?_cons_of_pos _ (by simp [hea])]
      · rw [List.map_cons, if_neg he,
          List.find?_cons_of_neg _ (by simp [hea]),
          List.find?_cons_of_neg _ (by simp [hea])]
        exact ih

lemma mapGet_mapInsert_ne (m : AccountsMap) {a k : Pubkey}
    (v : Option AccountData) (h : a ≠ k) :
    mapGet (mapInsert m k v) a = mapGet m a := by
  unfold mapInsert
  by_cases hc : mapContainsKey m k
  · rw [if_pos hc]
    exact mapGet_replace_ne m v h
  · rw [if_neg hc]
    unfold mapGet
    rw [List.find?_append]
    have hnone : List.find? (fun e : Pubkey × Option AccountData =>
        decide (e.1 = a)) [(k, v)] = none := by
      rw [List.find?_cons_of_neg _ (by simp; exact fun hka => h hka.symm)]
      rfl
    rw [hnone]
    simp

/-- **C6.** Readiness is exactly the conjunction: program-data address
known (non-default) AND both price-history addresses non-default AND both
resolved oracle addresses non-default; and whenever any of those is
default, `quote` fails with `RequiredAccountUpdate` regardless of what
the opaque executor would return. -/
theorem c6_readiness_gating :
    (∀ s : QuoteCheck.GfxAmm,
        s.ready = .ok () ↔
          s.program_data_address ≠ 0 ∧
            (s.price_histories.1 ≠ 0 ∧ s.price_histories.2 ≠ 0) ∧
            (s.oracles.1 ≠ 0 ∧ s.oracles.2 ≠ 0))
    ∧ ∀ (s : QuoteCheck.GfxAmm)
        (exec : Except GfxJupiterIntegrationError Quote),
        (s.program_data_address = 0 ∨
          (s.price_histories.1 = 0 ∨ s.price_histories.2 = 0) ∨
          (s.oracles.1 = 0 ∨ s.oracles.2 = 0)) →
        s.quote exec = .error .RequiredAccountUpdate := by
  have hready : ∀ s : QuoteCheck.GfxAmm,
      (s.program_data_address = 0 ∨
        (s.price_histories.1 = 0 ∨ s.price_histories.2 = 0) ∨
        (s.oracles.1 = 0 ∨ s.oracles.2 = 0)) →
      s.ready = .error .RequiredAccountUpdate := by
    intro s hs
    rw [QuoteCheck.GfxAmm.ready, if_pos hs]
  constructor
  · intro s
    by_cases hs : s.program_data_address = 0 ∨
        (s.price_histories.1 = 0 ∨ s.price_histories.2 = 0) ∨
        (s.oracles.1 = 0 ∨ s.oracles.2 = 0)
    · rw [hready s hs]
      constructor
      · intro h
        exact absurd h (by simp)
      · intro h
        push_neg at h
        exact absurd hs (by tauto)
    · rw [QuoteCheck.GfxAmm.ready, if_neg hs]
      push_neg at hs
      exact ⟨fun _ => by tauto, fun _ => rfl⟩
  · intro s exec hs
    show (s.ready >>= fun _ => exec) = _
    rw [hready s hs]
    rfl

/-- Witness for C6: a freshly constructed mirror (all addresses default)
rejects every quote with `RequiredAccountUpdate`, whatever the executor
would have produced. -/
theorem c6_readiness_gating_witness :
    ((0 : Pubkey) = 0 ∨
      ((0 : Pubkey) = 0 ∨ (0 : Pubkey) = 0) ∨
      ((0 : Pubkey) = 0 ∨ (0 : Pubkey) = 0))
    ∧ QuoteCheck.GfxAmm.quote
        ⟨0, false, (0, 0), 0, (0, 0), (0, 0), (0, 0), (0, 0), (0, 0), (0, 0),
          (0, 0), 0, (0, 0), 0, []⟩
        (.ok ⟨false, none, none, 0, 0, 0, 0, 0⟩) =
      .error .RequiredAccountUpdate :=
  ⟨Or.inl rfl,
    c6_readiness_gating.2
      ⟨0, false, (0, 0), 0, (0, 0), (0, 0), (0, 0), (0, 0), (0, 0), (0, 0),
        (0, 0), 0, (0, 0), 0, []⟩
      (.ok ⟨false, none, none, 0, 0, 0, 0, 0⟩) (Or.inl rfl)⟩

namespace QuoteCheck

/-- `registryMintStep` when the resolved price-history address changed:
the old address is evicted, the new one inserted and recorded. -/
lemma registryMintStep_changed (s : GfxAmm) (rNew rOld : PoolRegistry)
    (first : Bool) (aP bP : SSLPool)
    (hget : mapGet s.accounts s.pool_registry =
      some (some (.poolRegistryData rOld)))
    (hofind : rOld.find_pool (if first then s.mints.1 else s.mints.2) = .ok aP)
    (hnfind : rNew.find_pool (if first then s.mints.1 else s.mints.2) = .ok bP)
    (hne : aP.oracle_price_histories.1 ≠ bP.oracle_price_histories.1) :
    registryMintStep s s.pool_registry rNew first = .ok
      { s with
        accounts := mapInsert
          (mapRemove s.accounts aP.oracle_price_histories.1)
          bP.oracle_price_histories.1 none
        price_histories :=
          if first then (bP.oracle_price_histories.1, s.price_histories.2)
          else (s.price_histories.1, bP.oracle_price_histories.1) } := by
  unfold registryMintStep
  simp only [Bind.bind, Except.bind, hget, hnfind, hofind,
    deserializePoolRegistry, if_neg hne]
  rfl

/-- `registryMintStep` when the resolved price-history address is
unchanged: the account map is untouched. -/
lemma registryMintStep_unchanged (s : GfxAmm) (rNew rOld : PoolRegistry)
    (first : Bool) (aP bP : SSLPool)
    (hget : mapGet s.accounts s.pool_registry =
      some (some (.poolRegistryData rOld)))
    (hofind : rOld.find_pool (if first then s.mints.1 else s.mints.2) = .ok aP)
    (hnfind : rNew.find_pool (if first then s.mints.1 else s.mints.2) = .ok bP)
    (heq : aP.oracle_price_histories.1 = bP.oracle_price_histories.1) :
    registryMintStep s s.pool_registry rNew first = .ok
      { s with
        price_histories :=
          if first then (bP.oracle_price_histories.1, s.price_histories.2)
          else (s.price_histories.1, bP.oracle_price_histories.1) } := by
  unfold registryMintStep
  simp only [Bind.bind, Except.bind, hget, hnfind, hofind,
    deserializePoolRegistry, if_pos heq]
  rfl

end QuoteCheck

namespace QuoteCheck

/-- Processing the pool-registry account in `update` when one tracked
mint's resolved price-history address changed from `P1` to `P2` and the
other's is unchanged: `P1` is evicted from the account map, `P2`
inserted, both `price_histories` slots re-recorded, and the registry
bytes stored. -/
lemma updateOne_registry_eviction (s : GfxAmm) (rNew rOld : PoolRegistry)
    (a0 a1 b0 b1 : SSLPool) (P1 P2 : Pubkey)
    (hstore : mapGet s.accounts s.pool_registry =
      some (some (.poolRegistryData rOld)))
    (h0old : rOld.find_pool s.mints.1 = .ok a0)
    (h1old : rOld.find_pool s.mints.2 = .ok a1)
    (h0new : rNew.find_pool s.mints.1 = .ok b0)
    (h1new : rNew.find_pool s.mints.2 = .ok b1)
    (hcase :
      (a0.oracle_price_histories.1 = P1 ∧ b0.oracle_price_histories.1 = P2 ∧
        a1.oracle_price_histories.1 = b1.oracle_price_histories.1) ∨
      (a1.oracle_price_histories.1 = P1 ∧ b1.oracle_price_histories.1 = P2 ∧
        a0.oracle_price_histories.1 = b0.oracle_price_histories.1))
    (hP12 : P2 ≠ P1) (hP1reg : P1 ≠ s.pool_registry)
    (hP2reg : P2 ≠ s.pool_registry) :
    updateOne s (s.pool_registry, .poolRegistryData rNew) = .ok
      { s with
        accounts := mapInsert (mapInsert (mapRemove s.accounts P1) P2 none)
          s.pool_registry (some (.poolRegistryData rNew))
        price_histories :=
          (b0.oracle_price_histories.1, b1.oracle_price_histories.1) } := by
  have hcont : mapContainsKey s.accounts s.pool_registry = true :=
    mapContainsKey_of_mapGet_eq_some _ _ _ hstore
  rcases hcase with ⟨hA, hB, hC⟩ | ⟨hA, hB, hC⟩
  · subst hA
    subst hB
    have h1 := registryMintStep_changed s rNew rOld true a0 b0 hstore h0old
      h0new (fun h => hP12 h.symm)
    have hget1 : mapGet (mapInsert
        (mapRemove s.accounts a0.oracle_price_histories.1)
        b0.oracle_price_histories.1 none) s.pool_registry =
        some (some (.poolRegistryData rOld)) := by
      rw [mapGet_mapInsert_ne _ _ (Ne.symm hP2reg),
        mapGet_mapRemove_ne _ (Ne.symm hP1reg)]
      exact hstore
    have h2 := registryMintStep_unchanged
      { s with
        accounts := mapInsert
          (mapRemove s.accounts a0.oracle_price_histories.1)
          b0.oracle_price_histories.1 none
        price_histories :=
          (b0.oracle_price_histories.1, s.price_histories.2) }
      rNew rOld false a1 b1 hget1 h1old h1new hC
    have hcont1 : mapContainsKey (mapInsert
        (mapRemove s.accounts a0.oracle_price_histories.1)
        b0.oracle_price_histories.1 none) s.pool_registry = true :=
      mapContainsKey_of_mapGet_eq_some _ _ _ hget1
    unfold updateOne
    simp only [Bind.bind, Except.bind, hcont, Bool.not_true,
      deserializePoolRegistry, h1, h2, hcont1, Bool.false_eq_true,
      if_false, if_true, eq_self_iff_true]
  · subst hA
    subst hB
    have h1 := registryMintStep_unchanged s rNew rOld true a0 b0 hstore h0old
      h0new hC
    have h2 := registryMintStep_changed
      { s with
        price_histories :=
          (b0.oracle_price_histories.1, s.price_histories.2) }
      rNew rOld false a1 b1 hstore h1old h1new (fun h => hP12 h.symm)
    have hget1 : mapGet (mapInsert
        (mapRemove s.accounts a1.oracle_price_histories.1)
        b1.oracle_price_histories.1 none) s.pool_registry =
        some (some (.poolRegistryData rOld)) := by
      rw [mapGet_mapInsert_ne _ _ (Ne.symm hP2reg),
        mapGet_mapRemove_ne _ (Ne.symm hP1reg)]
      exact hstore
    have hcont1 : mapContainsKey (mapInsert
        (mapRemove s.accounts a1.oracle_price_histories.1)
        b1.oracle_price_histories.1 none) s.pool_registry = true :=
      mapContainsKey_of_mapGet_eq_some _ _ _ hget1
    unfold updateOne
    simp only [Bind.bind, Except.bind, hcont, Bool.not_true,
      deserializePoolRegistry, h1, h2, hcont1, Bool.false_eq_true,
      if_false, if_true, eq_self_iff_true]

end QuoteCheck

/-- **C2.** A mirror whose stored pool registry resolves a tracked mint's
price history to `P1`, receiving an update whose pool registry now
resolves that mint to `P2 ≠ P1` (the other tracked mint's resolution
unchanged, and `P1`, `P2` not aliasing the registry address itself),
evicts `P1` from the required addresses and adds `P2`. -/
theorem c2_stale_price_history_eviction
    (s : QuoteCheck.GfxAmm) (rOld rNew : PoolRegistry)
    (a0 a1 b0 b1 : SSLPool) (P1 P2 : Pubkey)
    (hstore : mapGet s.accounts s.pool_registry =
      some (some (.poolRegistryData rOld)))
    (h0old : rOld.find_pool s.mints.1 = .ok a0)
    (h1old : rOld.find_pool s.mints.2 = .ok a1)
    (h0new : rNew.find_pool s.mints.1 = .ok b0)
    (h1new : rNew.find_pool s.mints.2 = .ok b1)
    (hcase :
      (a0.oracle_price_histories.1 = P1 ∧ b0.oracle_price_histories.1 = P2 ∧
        a1.oracle_price_histories.1 = b1.oracle_price_histories.1) ∨
      (a1.oracle_price_histories.1 = P1 ∧ b1.oracle_price_histories.1 = P2 ∧
        a0.oracle_price_histories.1 = b0.oracle_price_histories.1))
    (hP12 : P2 ≠ P1) (hP1reg : P1 ≠ s.pool_registry)
    (hP2reg : P2 ≠ s.pool_registry) :
    s.update [(s.pool_registry, .poolRegistryData rNew)] = .ok
      { s with
        accounts := mapInsert (mapInsert (mapRemove s.accounts P1) P2 none)
          s.pool_registry (some (.poolRegistryData rNew))
        price_histories :=
          (b0.oracle_price_histories.1, b1.oracle_price_histories.1) }
    ∧ P1 ∉ QuoteCheck.GfxAmm.get_accounts_to_update
      { s with
        accounts := mapInsert (mapInsert (mapRemove s.accounts P1) P2 none)
          s.pool_registry (some (.poolRegistryData rNew))
        price_histories :=
          (b0.oracle_price_histories.1, b1.oracle_price_histories.1) }
    ∧ P2 ∈ QuoteCheck.GfxAmm.get_accounts_to_update
      { s with
        accounts := mapInsert (mapInsert (mapRemove s.accounts P1) P2 none)
          s.pool_registry (some (.poolRegistryData rNew))
        price_histories :=
          (b0.oracle_price_histories.1, b1.oracle_price_histories.1) } := by
  have hup := QuoteCheck.updateOne_registry_eviction s rNew rOld a0 a1 b0 b1
    P1 P2 hstore h0old h1old h0new h1new hcase hP12 hP1reg hP2reg
  refine ⟨?_, ?_, ?_⟩
  · show List.foldlM QuoteCheck.updateOne s _ = _
    rw [List.foldlM_cons, hup]
    rfl
  · show P1 ∉ mapKeys _
    intro hmem
    rcases (mem_keys_mapInsert _ _ _ _).mp hmem with h | h
    · exact hP1reg h
    rcases (mem_keys_mapInsert _ _ _ _).mp h with h | h
    · exact hP12 h.symm
    · exact ((mem_keys_mapRemove _ _ _).mp h).1 rfl
  · show P2 ∈ mapKeys _
    exact (mem_keys_mapInsert _ _ _ _).mpr (Or.inr
      ((mem_keys_mapInsert _ _ _ _).mpr (Or.inl rfl)))

/-- Concrete pool registry for the C2 witness: mint 10 resolves to price
history 11, mint 20 to price history 13. -/
def c2OldRegistry : PoolRegistry :=
  ⟨0, 0, 0, 0, 2, [⟨0, 0, 10, 0, 0, 0, 0, (11, 0, 0)⟩,
    ⟨0, 0, 20, 0, 0, 0, 0, (13, 0, 0)⟩]⟩

/-- The updated registry: mint 10 now resolves to price history 12. -/
def c2NewRegistry : PoolRegistry :=
  ⟨0, 0, 0, 0, 2, [⟨0, 0, 10, 0, 0, 0, 0, (12, 0, 0)⟩,
    ⟨0, 0, 20, 0, 0, 0, 0, (13, 0, 0)⟩]⟩

/-- Concrete mirror for the C2 witness, tracking price history 11. -/
def c2Mirror : QuoteCheck.GfxAmm where
  pair := 2
  log := false
  mints := (10, 20)
  pool_registry := 1
  fee_rates := (0, 0)
  fee_destination := (0, 0)
  ssl_signers := (0, 0)
  main_vaults := (0, 0)
  secondary_vaults := (0, 0)
  fee_vaults := (0, 0)
  oracles := (0, 0)
  event_emitter := 0
  price_histories := (11, 13)
  program_data_address := 0
  accounts := [(1, some (.poolRegistryData c2OldRegistry)), (11, none),
    (13, none)]

/-- Witness for C2: address 11 is required before the update; afterwards
it is evicted and 12 is required. -/
theorem c2_stale_price_history_eviction_witness :
    (11 : Pubkey) ∈ c2Mirror.get_accounts_to_update
    ∧ c2Mirror.update [(c2Mirror.pool_registry,
        .poolRegistryData c2NewRegistry)] = .ok
      { c2Mirror with
        accounts := mapInsert (mapInsert (mapRemove c2Mirror.accounts 11) 12
          none) c2Mirror.pool_registry (some (.poolRegistryData c2NewRegistry))
        price_histories := (12, 13) }
    ∧ (11 : Pubkey) ∉ QuoteCheck.GfxAmm.get_accounts_to_update
      { c2Mirror with
        accounts := mapInsert (mapInsert (mapRemove c2Mirror.accounts 11) 12
          none) c2Mirror.pool_registry (some (.poolRegistryData c2NewRegistry))
        price_histories := (12, 13) }
    ∧ (12 : Pubkey) ∈ QuoteCheck.GfxAmm.get_accounts_to_update
      { c2Mirror with
        accounts := mapInsert (mapInsert (mapRemove c2Mirror.accounts 11) 12
          none) c2Mirror.pool_registry (some (.poolRegistryData c2NewRegistry))
        price_histories := (12, 13) } :=
  have h := c2_stale_price_history_eviction c2Mirror c2OldRegistry
    c2NewRegistry ⟨0, 0, 10, 0, 0, 0, 0, (11, 0, 0)⟩
    ⟨0, 0, 20, 0, 0, 0, 0, (13, 0, 0)⟩ ⟨0, 0, 10, 0, 0, 0, 0, (12, 0, 0)⟩
    ⟨0, 0, 20, 0, 0, 0, 0, (13, 0, 0)⟩ 11 12 rfl rfl rfl rfl rfl
    (Or.inl ⟨rfl, rfl, rfl⟩) (by decide) (by decide) (by decide)
  ⟨by decide, h.1, h.2.1, h.2.2⟩
